import Mathlib

/-!
Verification of the route-optimization core of the fleet fuel-management
repository: a shallow embedding of `route_optimizer/services.py`
(class `RouteOptimizationService`) and of the API view
`api_ai_optimize_route` in `route_optimizer/views.py`, together with
theorems settling the specification's claims about them.

Modelling conventions:
* Python floats are idealised as real numbers (`ℝ`); the synthesized
  fuel-price arithmetic, which only involves decimal literals and
  integer hashes, is idealised as exact rationals (`ℚ`).
* `float('inf')` is modelled as `⊤` in `WithTop ℝ`.
* External I/O (the per-sample-point fuel-station queries) is modelled
  by passing the gathered per-query results as an explicit argument;
  a gathered exception (from `asyncio.gather(..., return_exceptions=True)`)
  is an `Except.error`.
* Python `list`s are `List`s, dictionaries preserving insertion order
  are association lists with first-insertion-wins updates.
-/

namespace RouteOpt

open Real

/-- `math.radians`: degrees to radians. -/
noncomputable def radians (x : ℝ) : ℝ := x * π / 180

/-- `math.atan2 y x`: the standard four-quadrant arctangent.  For the
arguments produced by `calculate_distance` (both non-negative) only the
first and the fourth branch are ever taken. -/
noncomputable def atan2 (y x : ℝ) : ℝ :=
  if 0 < x then arctan (y / x)
  else if x < 0 ∧ 0 ≤ y then arctan (y / x) + π
  else if x < 0 then arctan (y / x) - π
  else if 0 < y then π / 2
  else if y < 0 then -(π / 2)
  else 0

/-- `RouteOptimizationService.calculate_distance` (services.py lines 20-32):
Haversine great-circle distance in kilometres, Earth radius 6371 km. -/
noncomputable def calculate_distance (lat1 lon1 lat2 lon2 : ℝ) : ℝ :=
  let R : ℝ := 6371
  let dLat := radians (lat2 - lat1)
  let dLon := radians (lon2 - lon1)
  let a := sin (dLat / 2) * sin (dLat / 2) +
    cos (radians lat1) * cos (radians lat2) * sin (dLon / 2) * sin (dLon / 2)
  let c := 2 * atan2 (Real.sqrt a) (Real.sqrt (1 - a))
  R * c

lemma atan2_nonneg {y x : ℝ} (hy : 0 ≤ y) (hx : 0 ≤ x) : 0 ≤ atan2 y x := by
  unfold atan2
  rcases lt_or_eq_of_le hx with hx' | hx'
  · rw [if_pos hx']
    have := Real.arctan_strictMono.monotone (div_nonneg hy hx'.le)
    rwa [Real.arctan_zero] at this
  · rw [if_neg (by rw [← hx']; exact lt_irrefl 0)]
    rw [if_neg (by rw [← hx']; rintro ⟨h, -⟩; exact absurd h (lt_irrefl 0))]
    rw [if_neg (by rw [← hx']; exact lt_irrefl 0)]
    rcases lt_or_eq_of_le hy with hy' | hy'
    · rw [if_pos hy']
      positivity
    · rw [if_neg (by rw [← hy']; exact lt_irrefl 0), if_neg (by rw [← hy']; exact lt_irrefl 0)]

lemma calculate_distance_nonneg (lat1 lon1 lat2 lon2 : ℝ) :
    0 ≤ calculate_distance lat1 lon1 lat2 lon2 := by
  simp only [calculate_distance]
  have h := @atan2_nonneg (Real.sqrt
    (sin (radians (lat2 - lat1) / 2) * sin (radians (lat2 - lat1) / 2) +
      cos (radians lat1) * cos (radians lat2) * sin (radians (lon2 - lon1) / 2) *
        sin (radians (lon2 - lon1) / 2)))
    (Real.sqrt
    (1 - (sin (radians (lat2 - lat1) / 2) * sin (radians (lat2 - lat1) / 2) +
      cos (radians lat1) * cos (radians lat2) * sin (radians (lon2 - lon1) / 2) *
        sin (radians (lon2 - lon1) / 2))))
    (Real.sqrt_nonneg _) (Real.sqrt_nonneg _)
  linarith [h]

lemma calculate_distance_symm (lat1 lon1 lat2 lon2 : ℝ) :
    calculate_distance lat1 lon1 lat2 lon2 = calculate_distance lat2 lon2 lat1 lon1 := by
  simp only [calculate_distance]
  have h1 : radians (lat1 - lat2) / 2 = -(radians (lat2 - lat1) / 2) := by
    unfold radians; ring
  have h2 : radians (lon1 - lon2) / 2 = -(radians (lon2 - lon1) / 2) := by
    unfold radians; ring
  rw [h1, h2, Real.sin_neg, Real.sin_neg]
  ring_nf

lemma calculate_distance_self (lat lon : ℝ) : calculate_distance lat lon lat lon = 0 := by
  simp only [calculate_distance, radians]
  simp only [sub_self, zero_mul, zero_div, Real.sin_zero, mul_zero, zero_add, add_zero,
    Real.sqrt_zero, sub_zero, Real.sqrt_one]
  unfold atan2
  rw [if_pos one_pos]
  simp [Real.arctan_zero]

/-- C6: the Haversine primitive is symmetric, zero on identical points, and
non-negative. -/
theorem haversine_symm_self_nonneg :
    (∀ lat1 lon1 lat2 lon2 : ℝ,
      calculate_distance lat1 lon1 lat2 lon2 = calculate_distance lat2 lon2 lat1 lon1) ∧
    (∀ lat lon : ℝ, calculate_distance lat lon lat lon = 0) ∧
    (∀ lat1 lon1 lat2 lon2 : ℝ, 0 ≤ calculate_distance lat1 lon1 lat2 lon2) :=
  ⟨calculate_distance_symm, calculate_distance_self, calculate_distance_nonneg⟩

/-- Python `range(0, stop, step)` (for `step ≥ 1`): the `⌈stop/step⌉`
multiples of `step` below `stop`. -/
def pythonRange (stop step : Nat) : List Nat :=
  List.range' 0 ((stop + step - 1) / step) step

/-- `RouteOptimizationService._sample_route_points` (services.py lines
159-175).  The loop `for i in range(0, total_points, step)` collecting
`coordinates[i]` is modelled by `filterMap` over `pythonRange`; the final
`sampled[-1] != coordinates[-1]` check (both lists are non-empty whenever
it runs) is modelled on `getLast?`, and `sampled.append(coordinates[-1])`
by list concatenation. -/
def _sample_route_points [DecidableEq α] (coordinates : List α) (max_samples : Nat) :
    List α :=
  let total_points := coordinates.length
  if total_points ≤ max_samples then coordinates
  else
    let step := max 1 (total_points / max_samples)
    let sampled := (pythonRange total_points step).filterMap (fun i => coordinates[i]?)
    if sampled.getLast? ≠ coordinates.getLast? then sampled ++ coordinates.getLast?.toList
    else sampled

lemma filterMap_getElem_eq_nil {α} (l : List α) (idxs : List Nat)
    (h : ∀ i ∈ idxs, l.length ≤ i) : idxs.filterMap (fun i => l[i]?) = [] := by
  induction idxs with
  | nil => rfl
  | cons i rest ih =>
    have hi : l[i]? = none := by
      rw [List.getElem?_eq_none_iff]
      exact h i (List.mem_cons_self i rest)
    rw [List.filterMap_cons, hi]
    exact ih fun j hj => h j (List.mem_cons_of_mem i hj)

lemma filterMap_getElem_sublist_drop {α} (l : List α) :
    ∀ (idxs : List Nat) (s : Nat), List.Pairwise (· < ·) idxs → (∀ i ∈ idxs, s ≤ i) →
      (idxs.filterMap (fun i => l[i]?)).Sublist (l.drop s) := by
  intro idxs
  induction idxs with
  | nil => intro s _ _; simp
  | cons i rest ih =>
    intro s hpw hs
    have hrest_pw : List.Pairwise (· < ·) rest := hpw.of_cons
    have hlt : ∀ j ∈ rest, i < j := fun j hj => (List.pairwise_cons.mp hpw).1 j hj
    rw [List.filterMap_cons]
    cases hcase : l[i]? with
    | none =>
      have hlen : l.length ≤ i := by
        rw [← List.getElem?_eq_none_iff]; exact hcase
      rw [filterMap_getElem_eq_nil l rest (fun j hj => le_trans hlen (hlt j hj).le)]
      simp
    | some x =>
      have hi_lt : i < l.length := by
        by_contra hge
        rw [List.getElem?_eq_none_iff.mpr (le_of_not_lt hge)] at hcase
        exact Option.noConfusion hcase
      have hx : x = l[i] := by
        rw [List.getElem?_eq_getElem hi_lt] at hcase
        exact (Option.some.injEq _ _ ▸ hcase).symm
      have htail : (rest.filterMap (fun i => l[i]?)).Sublist (l.drop (i + 1)) :=
        ih (i + 1) hrest_pw (fun j hj => hlt j hj)
      have hcons : (x :: rest.filterMap (fun i => l[i]?)).Sublist (l.drop i) := by
        rw [hx, ← List.get_drop_eq_drop l i hi_lt]
        exact htail.cons₂ _
      have hsi : s ≤ i := hs i (List.mem_cons_self i rest)
      have hdrop : (l.drop i).Sublist (l.drop s) := by
        have : l.drop i = (l.drop s).drop (i - s) := by
          rw [List.drop_drop]
          congr 1
          omega
        rw [this]
        exact List.drop_sublist _ _
      exact hcons.trans hdrop

lemma filterMap_getElem_length {α} (l : List α) (idxs : List Nat)
    (h : ∀ i ∈ idxs, i < l.length) :
    (idxs.filterMap (fun i => l[i]?)).length = idxs.length := by
  induction idxs with
  | nil => rfl
  | cons i rest ih =>
    have hi : i < l.length := h i (List.mem_cons_self i rest)
    rw [List.filterMap_cons, List.getElem?_eq_getElem hi]
    simp only [List.length_cons]
    rw [ih (fun j hj => h j (List.mem_cons_of_mem i hj))]

lemma mem_of_getLast?_eq_some {α} {l : List α} {a : α} (h : l.getLast? = some a) :
    a ∈ l := by
  cases l with
  | nil => simp at h
  | cons b t =>
    have hne : b :: t ≠ [] := List.cons_ne_nil b t
    rw [List.getLast?_eq_getLast_of_ne_nil hne, Option.some.injEq] at h
    rw [← h]
    exact List.getLast_mem hne

lemma filterMap_getElem_getLast? {α} (l : List α) (idxs : List Nat)
    (h : ∀ i ∈ idxs, i < l.length) :
    (idxs.filterMap (fun i => l[i]?)).getLast? = idxs.getLast?.bind (fun i => l[i]?) := by
  induction idxs with
  | nil => rfl
  | cons i rest ih =>
    have hi : i < l.length := h i (List.mem_cons_self i rest)
    have hrest : ∀ j ∈ rest, j < l.length := fun j hj => h j (List.mem_cons_of_mem i hj)
    cases hr : rest with
    | nil =>
      subst hr
      simp [List.getElem?_eq_getElem hi]
    | cons j t =>
      subst hr
      have hj : j < l.length := hrest j (List.mem_cons_self j t)
      have hih := ih hrest
      simp only [List.filterMap_cons, List.getElem?_eq_getElem hj,
        List.getLast?_cons_cons] at hih
      simp only [List.filterMap_cons, List.getElem?_eq_getElem hi,
        List.getElem?_eq_getElem hj, List.getLast?_cons_cons]
      exact hih

lemma pairwise_lt_le_getLast {idxs : List Nat} (h : List.Pairwise (· < ·) idxs) {j : Nat}
    (hj : idxs.getLast? = some j) : ∀ i ∈ idxs, i ≤ j := by
  induction idxs with
  | nil => simp at hj
  | cons i rest ih =>
    intro a ha
    cases hr : rest with
    | nil =>
      subst hr
      simp at hj ha
      omega
    | cons b t =>
      subst hr
      have hj' : (b :: t).getLast? = some j := by
        rw [← hj, List.getLast?_cons_cons]
      have hrest_pw : List.Pairwise (· < ·) (b :: t) := h.of_cons
      rcases List.mem_cons.mp ha with rfl | hmem
      · have hjmem : j ∈ b :: t := mem_of_getLast?_eq_some hj'
        exact ((List.pairwise_cons.mp h).1 j hjmem).le
      · exact ih hrest_pw hj' a hmem

lemma mem_pythonRange_lt {total step i : Nat} (hstep : 1 ≤ step)
    (hi : i ∈ pythonRange total step) : i < total := by
  unfold pythonRange at hi
  rw [List.mem_range'] at hi
  obtain ⟨k, hk, rfl⟩ := hi
  have hmul : (total + step - 1) / step * step ≤ total + step - 1 := Nat.div_mul_le_self _ _
  have h2 : (k + 1) * step ≤ (total + step - 1) / step * step :=
    Nat.mul_le_mul_right step hk
  have hX : (k + 1) * step = step * k + step := by ring
  omega

lemma pythonRange_ne_nil {total step : Nat} (hstep : 1 ≤ step) (htot : 1 ≤ total) :
    pythonRange total step ≠ [] := by
  have hmem : 0 ∈ pythonRange total step := by
    unfold pythonRange
    rw [List.mem_range']
    exact ⟨0, Nat.div_pos (by omega) (by omega), by simp⟩
  intro hnil
  rw [hnil] at hmem
  exact List.not_mem_nil _ hmem

lemma sampled_core_sublist {α} (l : List α) (step : Nat) (hstep : 1 ≤ step) :
    ((pythonRange l.length step).filterMap (fun i => l[i]?)).Sublist l := by
  have hpw : List.Pairwise (· < ·) (pythonRange l.length step) := by
    unfold pythonRange
    exact List.pairwise_lt_range' 0 _ step (by omega)
  have := filterMap_getElem_sublist_drop l (pythonRange l.length step) 0 hpw
    (fun i _ => Nat.zero_le i)
  simpa using this

lemma sampled_core_append_sublist {α} (l : List α) (step : Nat) (hstep : 1 ≤ step)
    (hlen : 1 ≤ l.length)
    (hne : ((pythonRange l.length step).filterMap (fun i => l[i]?)).getLast? ≠ l.getLast?) :
    (((pythonRange l.length step).filterMap (fun i => l[i]?)) ++ l.getLast?.toList).Sublist
      l := by
  have hpw : List.Pairwise (· < ·) (pythonRange l.length step) := by
    unfold pythonRange
    exact List.pairwise_lt_range' 0 _ step (by omega)
  have hvalid : ∀ i ∈ pythonRange l.length step, i < l.length :=
    fun i hi => mem_pythonRange_lt hstep hi
  have hidx_ne : pythonRange l.length step ≠ [] := pythonRange_ne_nil hstep hlen
  obtain ⟨j, hj⟩ : ∃ j, (pythonRange l.length step).getLast? = some j :=
    ⟨_, List.getLast?_eq_getLast_of_ne_nil hidx_ne⟩
  have hjlt : j < l.length := hvalid j (mem_of_getLast?_eq_some hj)
  have hlast_lt : l.length - 1 < l.length := by omega
  have hlget : l.getLast? = some l[l.length - 1] := by
    rw [List.getLast?_eq_getElem?, List.getElem?_eq_getElem hlast_lt]
  have hsampled_last :
      ((pythonRange l.length step).filterMap (fun i => l[i]?)).getLast? = some l[j] := by
    rw [filterMap_getElem_getLast? l _ hvalid, hj]
    simp [List.getElem?_eq_getElem hjlt]
  have hjne : j ≠ l.length - 1 := by
    intro hjeq
    apply hne
    rw [hsampled_last, hlget]
    subst hjeq
    rfl
  have hjlt1 : j < l.length - 1 := by omega
  have hbound : ∀ i ∈ pythonRange l.length step, i < l.length - 1 := by
    intro i hi
    have := pairwise_lt_le_getLast hpw hj i hi
    omega
  have hpw' : List.Pairwise (· < ·) (pythonRange l.length step ++ [l.length - 1]) := by
    rw [List.pairwise_append]
    exact ⟨hpw, List.pairwise_singleton _ _, fun a ha b hb => by
      rw [List.mem_singleton] at hb
      subst hb
      exact hbound a ha⟩
  have heq : ((pythonRange l.length step ++ [l.length - 1]).filterMap (fun i => l[i]?)) =
      ((pythonRange l.length step).filterMap (fun i => l[i]?)) ++ l.getLast?.toList := by
    rw [List.filterMap_append]
    congr 1
    rw [hlget]
    simp [List.getElem?_eq_getElem hlast_lt]
  rw [← heq]
  have := filterMap_getElem_sublist_drop l (pythonRange l.length step ++ [l.length - 1]) 0
    hpw' (fun i _ => Nat.zero_le i)
  simpa using this

/-- C2 (amended): for `max_samples ≥ 1` the sampler returns an ordered
subsequence of the polyline whose last element is always the polyline's
last element; the `≤ max_samples` length bound of the original claim does
not hold (see the counterexample). -/
theorem sampler_ordered_subsequence_with_last {α} [DecidableEq α]
    (coordinates : List α) (max_samples : Nat) (hM : 1 ≤ max_samples) :
    (_sample_route_points coordinates max_samples).Sublist coordinates ∧
    (_sample_route_points coordinates max_samples).getLast? = coordinates.getLast? := by
  by_cases hle : coordinates.length ≤ max_samples
  · constructor
    · simp [_sample_route_points, hle]
    · simp [_sample_route_points, hle]
  · have hlen : 1 ≤ coordinates.length := by omega
    have hstep : 1 ≤ max 1 (coordinates.length / max_samples) := le_max_left _ _
    have hunfold : _sample_route_points coordinates max_samples =
        (if ((pythonRange coordinates.length
            (max 1 (coordinates.length / max_samples))).filterMap
              (fun i => coordinates[i]?)).getLast? ≠ coordinates.getLast? then
          ((pythonRange coordinates.length
            (max 1 (coordinates.length / max_samples))).filterMap
              (fun i => coordinates[i]?)) ++ coordinates.getLast?.toList
        else
          ((pythonRange coordinates.length
            (max 1 (coordinates.length / max_samples))).filterMap
              (fun i => coordinates[i]?))) := by
      simp only [_sample_route_points]
      rw [if_neg hle]
    by_cases hcond : ((pythonRange coordinates.length
        (max 1 (coordinates.length / max_samples))).filterMap
          (fun i => coordinates[i]?)).getLast? ≠ coordinates.getLast?
    · rw [hunfold, if_pos hcond]
      refine ⟨sampled_core_append_sublist coordinates _ hstep hlen hcond, ?_⟩
      obtain ⟨c, hc⟩ : ∃ c, coordinates.getLast? = some c :=
        ⟨_, List.getLast?_eq_getLast_of_ne_nil (by
          intro hnil
          rw [hnil] at hlen
          simp at hlen)⟩
      rw [hc]
      simp [List.getLast?_concat]
    · rw [hunfold, if_neg hcond]
      push_neg at hcond
      exact ⟨sampled_core_sublist coordinates _ hstep, hcond⟩

/-- C2 witness: the amended claim instantiated at a concrete 100-point
polyline with `max_samples = 20`. -/
theorem sampler_ordered_subsequence_with_last_witness :
    (_sample_route_points (List.range 100) 20).Sublist (List.range 100) ∧
    (_sample_route_points (List.range 100) 20).getLast? = (List.range 100).getLast? :=
  sampler_ordered_subsequence_with_last (List.range 100) 20 (by decide)

/-- C2 counterexample: for the 100-point polyline `0,…,99` with
`max_samples = 20` the sampler returns 21 points — the 20 stride points and
the appended final point — so the claimed `≤ 20` length bound is false. -/
theorem sampler_exceeds_max_samples_cex :
    (_sample_route_points (List.range 100) 20).length = 21 ∧
    ¬ ((_sample_route_points (List.range 100) 20).length ≤ 20) := by
  constructor
  · decide
  · decide

/-- C8: a polyline no longer than the sample cap is returned entirely
unchanged, and an empty polyline yields the empty sequence. -/
theorem sampler_short_polyline_unchanged {α} [DecidableEq α]
    (coordinates : List α) (max_samples : Nat) :
    (coordinates.length ≤ max_samples →
      _sample_route_points coordinates max_samples = coordinates) ∧
    _sample_route_points ([] : List α) max_samples = [] := by
  constructor
  · intro h
    simp [_sample_route_points, h]
  · simp [_sample_route_points]

/-- C8 witness: a 5-point polyline with `max_samples = 20` is returned
unchanged, in order. -/
theorem sampler_short_polyline_unchanged_witness :
    _sample_route_points [10, 11, 12, 13, 14] 20 = [10, 11, 12, 13, 14] :=
  (sampler_short_polyline_unchanged [10, 11, 12, 13, 14] 20).1 (by decide)

/-- ASCII whitespace recognised by Python's `str.strip()` and by the regex
class `\s` (the unicode cases do not arise for the payloads considered). -/
def isPySpace (c : Char) : Bool :=
  c = ' ' || c = '\t' || c = '\n' || c = '\r' || c = '\x0b' || c = '\x0c'

/-- Python `text.strip()` on the character list of a string. -/
def pyStrip (s : List Char) : List Char :=
  ((s.dropWhile isPySpace).reverse.dropWhile isPySpace).reverse

/-- The characters matched by the regex class `[\d,\s]`. -/
def isArrayChar (c : Char) : Bool := c.isDigit || c = ',' || isPySpace c

/-- `re.search(r'\[[\d,\s]+\]', text)`: the leftmost `[` followed by a
non-empty run of `[\d,\s]` characters and a closing `]`; returns the run
between the brackets.  Since `]` is not in the character class, the greedy
`+` consumes the maximal run and the attempt succeeds exactly when the
character after the run is `]`; on failure the scan restarts one position
to the right, as `re.search` does. -/
def findIntArray : List Char → Option (List Char)
  | [] => none
  | c :: rest =>
    if c = '[' then
      if (rest.takeWhile isArrayChar) ≠ [] ∧ (rest.dropWhile isArrayChar).head? = some ']' then
        some (rest.takeWhile isArrayChar)
      else findIntArray rest
    else findIntArray rest

/-- JSON whitespace (RFC 8259): space, tab, line feed, carriage return.
Note this is strictly smaller than the regex class `\s`, so a match can
still fail to parse as JSON. -/
def isJsonWs (c : Char) : Bool := c = ' ' || c = '\t' || c = '\n' || c = '\r'

/-- Trim JSON whitespace from both ends of a token. -/
def jsonTrim (s : List Char) : List Char :=
  ((s.dropWhile isJsonWs).reverse.dropWhile isJsonWs).reverse

/-- Numeric value of a digit run. -/
def natOfDigits (ds : List Char) : Nat :=
  ds.foldl (fun a c => 10 * a + (c.toNat - '0'.toNat)) 0

/-- One JSON integer token: non-empty, all digits, and no leading zero
(`01` is not valid JSON; `0` is). -/
def jsonIntToken? (s : List Char) : Option Nat :=
  if s ≠ [] ∧ s.all Char.isDigit ∧ (s = ['0'] ∨ s.head? ≠ some '0') then some (natOfDigits s)
  else none

/-- `json.loads('[' + run + ']')` for a `run` drawn from the class
`[\d,\s]`: either whitespace only (the empty array) or comma-separated
integer tokens, each surrounded by optional JSON whitespace.  This is
modelled by splitting the run at every comma; any malformed segment makes
the whole parse fail (`json.JSONDecodeError`, modelled as `none`), which
matches JSON's grammar for such inputs. -/
def parseJsonIntArray (run : List Char) : Option (List Nat) :=
  if jsonTrim run = [] then some []
  else
    let toks := (run.splitOn ',').map (fun seg => jsonIntToken? (jsonTrim seg))
    if toks.all Option.isSome then some toks.reduceOption else none

/-- `re.findall(r'\d+', text)` mapped through `int`: the values of the
maximal digit runs of the text, in order.  `cur` accumulates the digits of
the run currently being scanned, in reverse. -/
def findAllNumbersGo (cur : List Char) : List Char → List Nat
  | [] => if cur.isEmpty then [] else [natOfDigits cur.reverse]
  | c :: rest =>
    if c.isDigit then findAllNumbersGo (c :: cur) rest
    else if cur.isEmpty then findAllNumbersGo [] rest
    else natOfDigits cur.reverse :: findAllNumbersGo [] rest

/-- All integers occurring in the text, as `re.findall(r'\d+', ...)`. -/
def findAllNumbers (t : List Char) : List Nat := findAllNumbersGo [] t

/-- `RouteOptimizationService._extract_json_from_text` (services.py lines
249-272): strip the text, look for a bracketed integer list and JSON-parse
it (the parsed value is always a list of ints for such matches, so the
`isinstance` checks pass); otherwise fall back to scanning all integers in
the text; an empty scan gives `[]`, as does empty input. -/
def _extract_json_from_text (text : String) : List Nat :=
  if text.toList = [] then []
  else
    let t := pyStrip text.toList
    match findIntArray t with
    | some run =>
      match parseJsonIntArray run with
      | some parsed => parsed
      | none => findAllNumbers t
    | none => findAllNumbers t

/-- Python `range(1, n + 1)` as a list. -/
def pyRange1 (n : Nat) : List Nat := List.range' 1 n

/-- Python `set(xs) == set(ys)` for integer lists. -/
def listSetEq (xs ys : List Nat) : Bool :=
  xs.all (fun x => ys.contains x) && ys.all (fun y => xs.contains y)

/-- The acceptance test of `gemini_optimize_route` (services.py lines
357-359) on the extracted order: `optimal_order` is truthy (non-empty),
`len(optimal_order) == len(stops)`, and
`set(optimal_order) == set(range(1, len(stops) + 1))`. -/
def validateOptimalOrder (optimal_order : List Nat) (n : Nat) : Bool :=
  (!optimal_order.isEmpty) && (optimal_order.length == n) &&
    listSetEq optimal_order (pyRange1 n)

/-- C3: for `n ≥ 1` an extracted order is accepted iff its length is `n`
and its set of values is exactly `{1..n}`; the text `"Sure! [2, 1, 3]"`
extracts `[2, 1, 3]`, which is accepted for 3 stops, while `[1, 1, 2]`
(duplicate) and `[1, 2]` (wrong length) are rejected. -/
theorem llm_order_validation_iff :
    (∀ (order : List Nat) (n : Nat), 1 ≤ n →
      (validateOptimalOrder order n = true ↔
        (order.length = n ∧ ∀ x, x ∈ order ↔ (1 ≤ x ∧ x ≤ n)))) ∧
    _extract_json_from_text "Sure! [2, 1, 3]" = [2, 1, 3] ∧
    validateOptimalOrder [2, 1, 3] 3 = true ∧
    validateOptimalOrder [1, 1, 2] 3 = false ∧
    validateOptimalOrder [1, 2] 3 = false := by
  refine ⟨?_, by decide, by decide, by decide, by decide⟩
  intro order n hn
  unfold validateOptimalOrder listSetEq pyRange1
  simp only [Bool.and_eq_true, beq_iff_eq, List.all_eq_true, List.elem_iff,
    Bool.not_eq_eq_eq_not, Bool.not_true, List.isEmpty_eq_false, ne_eq,
    List.mem_range'_1]
  constructor
  · rintro ⟨⟨hne, hlen⟩, hsub, hsup⟩
    refine ⟨hlen, fun x => ⟨fun hx => ?_, fun hx => ?_⟩⟩
    · have := hsub x hx
      omega
    · exact hsup x (by omega)
  · rintro ⟨hlen, hmem⟩
    have h1 : 1 ∈ order := (hmem 1).mpr ⟨le_refl 1, hn⟩
    refine ⟨⟨?_, hlen⟩, fun x hx => ?_, fun y hy => ?_⟩
    · intro hnil
      rw [hnil] at h1
      exact List.not_mem_nil _ h1
    · have := (hmem x).mp hx
      omega
    · exact (hmem y).mpr ⟨by omega, by omega⟩

/-- C3 witness: the validation equivalence instantiated at `[2, 1, 3]`
and `n = 3`. -/
theorem llm_order_validation_iff_witness :
    validateOptimalOrder [2, 1, 3] 3 = true ↔
      (([2, 1, 3] : List Nat).length = 3 ∧
        ∀ x, x ∈ ([2, 1, 3] : List Nat) ↔ (1 ≤ x ∧ x ≤ 3)) :=
  llm_order_validation_iff.1 [2, 1, 3] 3 (by decide)

/-- A stop submitted to the optimizer: `{'name': ..., 'lat': ..., 'lon': ...}`. -/
structure Stop where
  name : String
  lat : ℝ
  lon : ℝ

/-- The inner `for idx, stop_id in enumerate(unvisited)` scan of
`create_fallback_optimization`: returns `nearest_idx`, the position in
`unvisited` of the stop with minimal distance (first minimum wins, since
the update requires a strict `<`).  `shortest_distance = float('inf')` is
modelled as `none`, which every first comparison beats. -/
noncomputable def selectNearestIdx (dist : Nat → ℝ) (unvisited : List Nat) : Nat :=
  (unvisited.enum.foldl
    (fun (acc : Nat × Option ℝ) (p : Nat × Nat) =>
      match acc.2 with
      | none => (p.1, some (dist p.2))
      | some shortest => if dist p.2 < shortest then (p.1, some (dist p.2)) else acc)
    ((0, none) : Nat × Option ℝ)).1

lemma foldl_preserves {β γ : Type _} (f : γ → β → γ) (P : γ → Prop) :
    ∀ (l : List β) (init : γ), P init → (∀ acc b, b ∈ l → P acc → P (f acc b)) →
      P (l.foldl f init) := by
  intro l
  induction l with
  | nil => intro init hinit _; exact hinit
  | cons b t ih =>
    intro init hinit hstep
    simp only [List.foldl_cons]
    exact ih (f init b) (hstep init b (List.mem_cons_self b t) hinit)
      (fun acc x hx hacc => hstep acc x (List.mem_cons_of_mem b hx) hacc)

lemma selectNearestIdx_lt (dist : Nat → ℝ) (unvisited : List Nat) (h : unvisited ≠ []) :
    selectNearestIdx dist unvisited < unvisited.length := by
  unfold selectNearestIdx
  have hlen : 0 < unvisited.length := List.length_pos.mpr h
  refine foldl_preserves _ (fun (acc : Nat × Option ℝ) => acc.1 < unvisited.length) _ _ hlen ?_
  rintro acc ⟨i, x⟩ hb hacc
  have hi : i < unvisited.length := (List.mem_enum hb).1
  cases hacc2 : acc.2 with
  | none => simpa [hacc2] using hi
  | some s =>
    simp only [hacc2]
    by_cases hc : dist x < s
    · simpa [hc] using hi
    · simpa [hc] using hacc

/-- The `while unvisited:` loop of `create_fallback_optimization`
(services.py lines 390-407): each iteration selects the nearest unvisited
stop, `pop`s it (always at a valid position, by `selectNearestIdx_lt`),
appends it, and continues from it. -/
noncomputable def greedyLoop (dist : Nat → Nat → ℝ) (current : Nat) (unvisited : List Nat) :
    List Nat :=
  if h : unvisited.isEmpty then []
  else
    let nearest_idx := selectNearestIdx (dist current) unvisited
    let next := unvisited.getD nearest_idx 0
    next :: greedyLoop dist next (unvisited.eraseIdx nearest_idx)
termination_by unvisited.length
decreasing_by
  have hne : unvisited ≠ [] := by simpa using h
  have hk : selectNearestIdx (dist current) unvisited < unvisited.length :=
    selectNearestIdx_lt _ _ hne
  rw [List.length_eraseIdx, if_pos hk]
  omega

/-- `RouteOptimizationService.create_fallback_optimization` (services.py
lines 377-409): for at most two stops, `list(range(1, len(stops) + 1))`;
otherwise greedy nearest-neighbour over 1-based stop ids, starting from
id 1 (so `optimized = [1]` and `unvisited = range(1, N + 1)` minus `1`).
`stops[stop_id - 1]` is modelled with `getD` and a junk default — the
indices are always in range. -/
noncomputable def create_fallback_optimization (stops : List Stop) : List Nat :=
  if stops.length ≤ 2 then List.range' 1 stops.length
  else
    let dist := fun current candidate =>
      calculate_distance (stops.getD (current - 1) ⟨"", 0, 0⟩).lat
        (stops.getD (current - 1) ⟨"", 0, 0⟩).lon
        (stops.getD (candidate - 1) ⟨"", 0, 0⟩).lat
        (stops.getD (candidate - 1) ⟨"", 0, 0⟩).lon
    1 :: greedyLoop dist 1 ((List.range' 1 stops.length).erase 1)

lemma greedyLoop_perm_aux (dist : Nat → Nat → ℝ) :
    ∀ (n : Nat) (unvisited : List Nat), unvisited.length ≤ n → ∀ current,
      (greedyLoop dist current unvisited).Perm unvisited := by
  intro n
  induction n with
  | zero =>
    intro u hu current
    have hnil : u = [] := List.length_eq_zero.mp (Nat.le_zero.mp hu)
    subst hnil
    rw [greedyLoop]
    simp
  | succ n ih =>
    intro u hu current
    rw [greedyLoop]
    by_cases hemp : u.isEmpty
    · have hnil : u = [] := by simpa using hemp
      subst hnil
      simp
    · rw [dif_neg hemp]
      have hne : u ≠ [] := by simpa using hemp
      have hk : selectNearestIdx (dist current) u < u.length := selectNearestIdx_lt _ _ hne
      have hgetD : u.getD (selectNearestIdx (dist current) u) 0 =
          u[selectNearestIdx (dist current) u] := List.getD_eq_getElem u 0 hk
      have hrec := ih (u.eraseIdx (selectNearestIdx (dist current) u))
        (by rw [List.length_eraseIdx, if_pos hk]; omega)
        (u.getD (selectNearestIdx (dist current) u) 0)
      have hsplit : (u[selectNearestIdx (dist current) u] ::
          u.eraseIdx (selectNearestIdx (dist current) u)).Perm u := by
        rw [List.eraseIdx_eq_take_drop_succ]
        refine List.perm_middle.symm.trans ?_
        rw [List.get_drop_eq_drop u _ hk, List.take_append_drop]
      dsimp only
      rw [hgetD] at hrec ⊢
      exact (hrec.cons _).trans hsplit

lemma greedyLoop_perm (dist : Nat → Nat → ℝ) (current : Nat) (unvisited : List Nat) :
    (greedyLoop dist current unvisited).Perm unvisited :=
  greedyLoop_perm_aux dist unvisited.length unvisited (le_refl _) current

lemma create_fallback_optimization_perm (stops : List Stop) :
    (create_fallback_optimization stops).Perm (List.range' 1 stops.length) := by
  by_cases h : stops.length ≤ 2
  · simp [create_fallback_optimization, h]
  · simp only [create_fallback_optimization]
    rw [if_neg h]
    refine ((greedyLoop_perm _ _ _).cons 1).trans ?_
    obtain ⟨m, hm⟩ : ∃ m, stops.length = m + 1 := ⟨stops.length - 1, by omega⟩
    rw [hm, List.range'_succ]
    simp

lemma calculate_distance_equator {q : ℝ} (h0 : 0 ≤ q) (h1 : q < 180) :
    calculate_distance 0 0 0 q = 6371 * (q * π / 180) := by
  have hπ := Real.pi_pos
  have hx0 : 0 ≤ q * π / 360 := by positivity
  have hxlt : q * π / 360 < π / 2 := by
    rw [div_lt_div_iff (by norm_num) (by norm_num)]
    nlinarith
  have hsin0 : 0 ≤ sin (q * π / 360) :=
    Real.sin_nonneg_of_nonneg_of_le_pi hx0 (by linarith)
  have hcos : 0 < cos (q * π / 360) :=
    Real.cos_pos_of_mem_Ioo ⟨by linarith, hxlt⟩
  simp only [calculate_distance, radians]
  rw [show ((0:ℝ) - 0) * π / 180 = 0 from by ring]
  rw [show ((q:ℝ) - 0) * π / 180 / 2 = q * π / 360 from by ring]
  rw [show ((0:ℝ)) * π / 180 = 0 from by ring]
  simp only [zero_div, Real.sin_zero, Real.cos_zero, mul_zero, zero_mul, zero_add,
    one_mul, mul_one]
  rw [show (1:ℝ) - sin (q * π / 360) * sin (q * π / 360) =
      cos (q * π / 360) * cos (q * π / 360) from by
    nlinarith [Real.sin_sq_add_cos_sq (q * π / 360)]]
  rw [Real.sqrt_mul_self hsin0, Real.sqrt_mul_self hcos.le]
  unfold atan2
  rw [if_pos hcos, ← Real.tan_eq_sin_div_cos,
    Real.arctan_tan (by linarith) hxlt]
  ring

lemma calculate_distance_equator_lt {q q' : ℝ} (h0 : 0 ≤ q) (hlt : q < q') (h1 : q' < 180) :
    calculate_distance 0 0 0 q < calculate_distance 0 0 0 q' := by
  rw [calculate_distance_equator h0 (by linarith),
    calculate_distance_equator (by linarith) h1]
  have hπ := Real.pi_pos
  have hmul : 0 < (q' - q) * π := mul_pos (by linarith) hπ
  nlinarith [hmul]

lemma selectNearestIdx_single (dist : Nat → ℝ) (a : Nat) :
    selectNearestIdx dist [a] = 0 := by
  simp [selectNearestIdx, List.enum, List.enumFrom]

lemma selectNearestIdx_pair (dist : Nat → ℝ) (a b : Nat) :
    selectNearestIdx dist [a, b] = if dist b < dist a then 1 else 0 := by
  unfold selectNearestIdx
  simp only [List.enum, List.enumFrom, List.foldl_cons, List.foldl_nil]
  by_cases h : dist b < dist a
  · simp [h]
  · simp [h]

lemma greedyLoop_single (dist : Nat → Nat → ℝ) (c a : Nat) :
    greedyLoop dist c [a] = [a] := by
  rw [greedyLoop, dif_neg (by simp)]
  dsimp only
  rw [selectNearestIdx_single]
  rw [greedyLoop]
  simp

lemma greedyLoop_pair (dist : Nat → Nat → ℝ) (c a b : Nat)
    (h : dist c b < dist c a) : greedyLoop dist c [a, b] = [b, a] := by
  rw [greedyLoop, dif_neg (by simp)]
  dsimp only
  rw [selectNearestIdx_pair, if_pos h]
  have h1 : ([a, b].getD 1 0) = b := rfl
  have h2 : ([a, b].eraseIdx 1) = [a] := rfl
  rw [h1, h2, greedyLoop_single]

/-- C4: the fallback optimizer returns the identity order for at most two
stops, and greedy nearest-neighbour from stop id 1 for more; for stops at
(0,0), (0,10), (0,1) with ids 1, 2, 3 it yields `[1, 3, 2]`, visiting id 3
before id 2. -/
theorem fallback_identity_and_nearest_neighbor :
    (∀ stops : List Stop, stops.length ≤ 2 →
      create_fallback_optimization stops = List.range' 1 stops.length) ∧
    create_fallback_optimization [⟨"s1", 0, 0⟩, ⟨"s2", 0, 10⟩, ⟨"s3", 0, 1⟩] = [1, 3, 2] := by
  constructor
  · intro stops h
    simp [create_fallback_optimization, h]
  · have hlt : calculate_distance 0 0 0 1 < calculate_distance 0 0 0 10 :=
      calculate_distance_equator_lt (by norm_num) (by norm_num) (by norm_num)
    have hlen : ([⟨"s1", 0, 0⟩, ⟨"s2", 0, 10⟩, ⟨"s3", 0, 1⟩] : List Stop).length = 3 := rfl
    simp only [create_fallback_optimization, hlen]
    rw [if_neg (by norm_num)]
    rw [show (List.range' 1 3).erase 1 = [2, 3] from by decide]
    rw [greedyLoop_pair]
    · norm_num [List.getD_cons_zero, List.getD_cons_succ]
      exact hlt

/-- C4 witness: the identity-order clause instantiated at a concrete
two-stop list, yielding `[1, 2]`. -/
theorem fallback_identity_and_nearest_neighbor_witness :
    create_fallback_optimization [⟨"a", 0, 0⟩, ⟨"b", 1, 1⟩] = List.range' 1 2 :=
  fallback_identity_and_nearest_neighbor.1 [⟨"a", 0, 0⟩, ⟨"b", 1, 1⟩] (by decide)

/-- The methods defined by `class RouteOptimizationService` in
services.py — `ai_optimize_route` is not among them. -/
def routeOptimizationServiceMethods : List String :=
  ["calculate_distance", "search_places", "calculate_route", "_extract_instructions",
   "find_fuel_stations_along_route", "_sample_route_points",
   "_fetch_fuel_stations_near_point", "_clean_station_name", "_determine_fuel_types",
   "_calculate_distance_to_route", "_extract_json_from_text", "gemini_optimize_route",
   "create_fallback_optimization"]

/-- The result dict a stop-order optimization attempt hands to the view:
`success`, `optimal_order`, `gemini_response`, `error`. -/
structure AiResult where
  success : Bool
  optimal_order : List Nat
  gemini_response : Option String
  error : Option String

/-- The JSON body returned by `api_ai_optimize_route`: `success`,
`error`, `optimal_order`, the `fallback` flag (absent ⇒ `false`), and the
`ai_response` / `gemini_response` texts. -/
structure OptimizeResponse where
  success : Bool
  error : Option String
  optimal_order : Option (List Nat)
  fallback : Bool
  ai_response : Option String
  gemini_response : Option String

/-- Lines 138-148 of views.py, given the result of the service call: when
`result.get('success')` is falsy, replace the result by the fallback
response built from `create_fallback_optimization`; otherwise return the
service result unchanged. -/
noncomputable def viewFallbackLogic (stops : List Stop) (result : AiResult) :
    OptimizeResponse :=
  if !result.success then
    ⟨true, none, some (create_fallback_optimization stops), true,
      some "Used fallback optimization", none⟩
  else
    ⟨result.success, result.error, some result.optimal_order, false, none,
      result.gemini_response⟩

/-- `api_ai_optimize_route` (views.py lines 120-150).  The view rejects
fewer than 3 stops, then evaluates `service.ai_optimize_route(stops)`.
`RouteOptimizationService` defines no method of that name (its optimizer
is `gemini_optimize_route`; see `routeOptimizationServiceMethods`), so the
attribute lookup raises `AttributeError`, modelled as `Except.error`, and
the fallback branch of lines 138-147 (`viewFallbackLogic`) is dead code.
`aiResult` stands for the value the service call would produce if the
method existed. -/
noncomputable def api_ai_optimize_route (stops : List Stop) (aiResult : AiResult) :
    Except String OptimizeResponse :=
  if stops.length < 3 then
    .ok ⟨false, some "Need at least 3 stops for optimization", none, false, none, none⟩
  else if routeOptimizationServiceMethods.contains "ai_optimize_route" then
    .ok (viewFallbackLogic stops aiResult)
  else
    .error "AttributeError: 'RouteOptimizationService' object has no attribute 'ai_optimize_route'"

/-- C1 (code bug): for every request with at least 3 stops the endpoint
raises `AttributeError` — views.py line 136 calls
`service.ai_optimize_route`, a method `RouteOptimizationService` does not
define — instead of ever returning the fallback result.  The dead
fallback branch itself (lines 139-147) would, on any failed LLM result,
return `success = true`, the `fallback` flag, and the heuristic order,
which is a permutation of `{1..N}`. -/
theorem api_ai_optimize_attribute_error :
    (∀ (stops : List Stop) (r : AiResult), 3 ≤ stops.length →
      api_ai_optimize_route stops r = .error
        "AttributeError: 'RouteOptimizationService' object has no attribute 'ai_optimize_route'") ∧
    (∀ (stops : List Stop) (r : AiResult), r.success = false →
      (viewFallbackLogic stops r).success = true ∧
      (viewFallbackLogic stops r).fallback = true ∧
      (viewFallbackLogic stops r).optimal_order = some (create_fallback_optimization stops) ∧
      (create_fallback_optimization stops).Perm (List.range' 1 stops.length)) := by
  constructor
  · intro stops r h
    unfold api_ai_optimize_route
    rw [if_neg (by omega), if_neg (by decide)]
  · intro stops r h
    refine ⟨?_, ?_, ?_, create_fallback_optimization_perm stops⟩ <;>
      simp [viewFallbackLogic, h]

/-- C1 witness: a concrete 3-stop request together with a simulated LLM
failure raises the `AttributeError` rather than returning a response. -/
theorem api_ai_optimize_attribute_error_witness :
    api_ai_optimize_route [⟨"s1", 0, 0⟩, ⟨"s2", 0, 10⟩, ⟨"s3", 0, 1⟩]
        ⟨false, [], none, some "Gemini API Error: 500"⟩ = .error
      "AttributeError: 'RouteOptimizationService' object has no attribute 'ai_optimize_route'" :=
  api_ai_optimize_attribute_error.1 [⟨"s1", 0, 0⟩, ⟨"s2", 0, 10⟩, ⟨"s3", 0, 1⟩]
    ⟨false, [], none, some "Gemini API Error: 500"⟩ (by decide)

/-- Python `x % m` on numbers, for `m > 0`: `x - m * ⌊x / m⌋`, which lies
in `[0, m)`. -/
def pyFmod (x m : ℚ) : ℚ := x - m * ⌊x / m⌋

/-- Round half to even to an integer, as Python's builtin `round`. -/
def roundHalfEven (x : ℚ) : ℤ :=
  let f := ⌊x⌋
  let r := x - f
  if r < 1 / 2 then f
  else if 1 / 2 < r then f + 1
  else if 2 ∣ f then f else f + 1

/-- Python `round(x, 2)`: round to two decimal places, ties to even. -/
def pyRound2 (x : ℚ) : ℚ := roundHalfEven (x * 100) / 100

/-- The synthesized price of `_fetch_fuel_stations_near_point`
(services.py line 202):
`round(3.20 + (0.60 * hash(str(props.get('lat', 0))) % 100 / 100), 2)`
with `h` the integer hash value.  Python's left-associative precedence
groups the inner expression as `((0.60 * h) % 100) / 100`. -/
def stationPrice (h : ℤ) : ℚ := pyRound2 (3.20 + pyFmod (0.60 * h) 100 / 100)

/-- The properties dict of one point-of-interest feature from the
gateway; `price` is a hypothetical gateway-supplied price field, present
in the model only to state that the code never reads it. -/
structure PlaceProps where
  name : String
  lat : ℚ
  lon : ℚ
  price : Option ℚ

/-- The station dict built for one feature (services.py lines 196-204),
restricted to the fields relevant here; `pyHash` abstracts Python's
string hashing applied to `str(props.get('lat', 0))`. -/
structure FetchedStation where
  lat : ℚ
  lon : ℚ
  price : ℚ

/-- Builds one station entry; its `'price'` is synthesized from the hash
of the latitude string and from nothing else. -/
def buildFetchedStation (props : PlaceProps) (pyHash : ℚ → ℤ) : FetchedStation :=
  ⟨props.lat, props.lon, stationPrice (pyHash props.lat)⟩

lemma pyFmod_bounds (x : ℚ) : 0 ≤ pyFmod x 100 ∧ pyFmod x 100 < 100 := by
  unfold pyFmod
  have h1 := Int.floor_le (x / 100)
  have h2 := Int.lt_floor_add_one (x / 100)
  constructor <;> nlinarith

lemma roundHalfEven_mem (y : ℚ) :
    roundHalfEven y = ⌊y⌋ ∨ roundHalfEven y = ⌊y⌋ + 1 := by
  simp only [roundHalfEven]
  split_ifs <;> simp

/-- C9 (amended): every fetched station's `'price'` is synthesized
locally as `round(3.20 + (0.60 * hash(latitude-string) % 100 / 100), 2)`
— never taken from the gateway response — and for any integer hash value
it lies in the closed interval `[3.20, 4.20]` (the final rounding can
reach exactly 4.20, so the half-open interval of the original claim is
off by its right endpoint). -/
theorem station_price_synthesized_and_bounded :
    (∀ (props : PlaceProps) (pyHash : ℚ → ℤ),
      (buildFetchedStation props pyHash).price = stationPrice (pyHash props.lat)) ∧
    (∀ h : ℤ, 3.20 ≤ stationPrice h ∧ stationPrice h ≤ 4.20) := by
  refine ⟨fun props pyHash => rfl, fun h => ?_⟩
  obtain ⟨hm0, hm1⟩ := pyFmod_bounds (0.60 * (h : ℚ))
  unfold stationPrice pyRound2
  have hy0 : (320 : ℚ) ≤ (3.20 + pyFmod (0.60 * (h : ℚ)) 100 / 100) * 100 := by nlinarith
  have hy1 : (3.20 + pyFmod (0.60 * (h : ℚ)) 100 / 100) * 100 < 420 := by nlinarith
  have hfl0 : (320 : ℤ) ≤ ⌊(3.20 + pyFmod (0.60 * (h : ℚ)) 100 / 100) * 100⌋ :=
    Int.le_floor.mpr (by exact_mod_cast hy0)
  have hfl1 : ⌊(3.20 + pyFmod (0.60 * (h : ℚ)) 100 / 100) * 100⌋ < 420 :=
    Int.floor_lt.mpr (by exact_mod_cast hy1)
  rcases roundHalfEven_mem ((3.20 + pyFmod (0.60 * (h : ℚ)) 100 / 100) * 100) with hre | hre <;>
    rw [hre] <;>
    constructor <;>
    · have hc0 : ((320 : ℚ)) ≤ (⌊(3.20 + pyFmod (0.60 * (h : ℚ)) 100 / 100) * 100⌋ : ℚ) := by
        exact_mod_cast hfl0
      have hc1 : ((⌊(3.20 + pyFmod (0.60 * (h : ℚ)) 100 / 100) * 100⌋ : ℚ)) ≤ 419 := by
        have : ⌊(3.20 + pyFmod (0.60 * (h : ℚ)) 100 / 100) * 100⌋ ≤ 419 := by omega
        exact_mod_cast this
      push_cast
      linarith

/-- C9 counterexample: at hash value 166 the rounding yields exactly
4.20, refuting the half-open upper bound `price < 4.20`. -/
theorem station_price_reaches_420_cex :
    stationPrice 166 = 4.20 ∧ ¬ (stationPrice 166 < 4.20) := by
  have heval : stationPrice 166 = 4.20 := by
    unfold stationPrice pyRound2 pyFmod roundHalfEven
    norm_num
  exact ⟨heval, by rw [heval]; exact lt_irrefl _⟩

/-- A fuel station as fetched near one sample point (services.py lines
196-204), reduced to the coordinate fields the discovery pipeline
inspects. -/
structure FuelStation where
  lat : ℝ
  lon : ℝ

/-- A station as returned by `find_fuel_stations_along_route`: the
fetched dict after the loop has added its `'distance_from_route'`
entry. -/
structure StationOut where
  lat : ℝ
  lon : ℝ
  distance_from_route : WithTop ℝ

/-- `RouteOptimizationService._calculate_distance_to_route` (services.py
lines 238-247): minimum Haversine distance from the point to any
polyline coordinate.  `min_distance` starts at `float('inf')` (`⊤` in
`WithTop ℝ`), which is also the value returned for an empty coordinate
list.  A polyline coordinate is `[lon, lat]`, hence the swapped
projections. -/
noncomputable def _calculate_distance_to_route (lat lon : ℝ)
    (route_coordinates : List (ℝ × ℝ)) : WithTop ℝ :=
  route_coordinates.foldl
    (fun min_distance coord =>
      let distance := calculate_distance lat lon coord.2 coord.1
      if (distance : WithTop ℝ) < min_distance then (distance : WithTop ℝ) else min_distance)
    ⊤

/-- A GeoJSON geometry dict: `{'type': ..., 'coordinates': [[lon, lat], ...]}`.
An absent or falsy geometry is `none` at the call site. -/
structure RouteGeometry where
  type : String
  coordinates : List (ℝ × ℝ)

/-- The dedup key `f"{station['lat']:.6f},{station['lon']:.6f}"`:
coordinates rounded to 6 decimal places. -/
noncomputable def stationKey (lat lon : ℝ) : ℤ × ℤ :=
  (round (lat * 10 ^ 6), round (lon * 10 ^ 6))

/-- One step of the station loop (services.py lines 143-151): skip a
station whose key is already in the insertion-ordered `stations_map`;
otherwise compute its `distance_from_route` and store it iff that
distance is within 1.5 km. -/
noncomputable def insertStation (coordinates : List (ℝ × ℝ))
    (m : List ((ℤ × ℤ) × StationOut)) (station : FuelStation) :
    List ((ℤ × ℤ) × StationOut) :=
  let station_id := stationKey station.lat station.lon
  if (m.lookup station_id).isSome then m
  else
    let d := _calculate_distance_to_route station.lat station.lon coordinates
    if d ≤ ((1.5 : ℝ) : WithTop ℝ) then m ++ [(station_id, ⟨station.lat, station.lon, d⟩)]
    else m

/-- The `for result in results:` loop (services.py lines 141-151):
gathered exceptions (`Except.error`) fail the `isinstance(result, list)`
test and are skipped; list results have their stations folded into the
map. -/
noncomputable def buildStationsMap (coordinates : List (ℝ × ℝ))
    (results : List (Except Unit (List FuelStation))) : List ((ℤ × ℤ) × StationOut) :=
  results.foldl
    (fun m result =>
      match result with
      | .error _ => m
      | .ok stations => stations.foldl (insertStation coordinates) m)
    []

/-- `RouteOptimizationService.find_fuel_stations_along_route`
(services.py lines 117-157).  The polyline is sampled only to decide
where the concurrent point-of-interest queries are issued; the gathered
per-query results are the `results` argument here (see the module
docstring).  After the guards, the map's values are sorted ascending by
`distance_from_route` (`list.sort` with a key) and truncated to 20. -/
noncomputable def find_fuel_stations_along_route (route_geometry : Option RouteGeometry)
    (results : List (Except Unit (List FuelStation))) : List StationOut :=
  match route_geometry with
  | none => []
  | some g =>
    if g.type ≠ "LineString" then []
    else if g.coordinates.isEmpty then []
    else
      let fuel_stations := (buildStationsMap g.coordinates results).map Prod.snd
      (fuel_stations.mergeSort
        (fun a b => decide (a.distance_from_route ≤ b.distance_from_route))).take 20

/-- C7: an absent geometry, a non-`LineString` geometry, or an empty
coordinate list each make the fuel-station finder return the empty list
(never an error), whatever the fetched results are. -/
theorem fuel_finder_invalid_geometry_empty
    (route_geometry : Option RouteGeometry)
    (results : List (Except Unit (List FuelStation)))
    (h : route_geometry = none ∨
      ∀ g, route_geometry = some g → g.type ≠ "LineString" ∨ g.coordinates = []) :
    find_fuel_stations_along_route route_geometry results = [] := by
  cases hg : route_geometry with
  | none => rfl
  | some g =>
    rcases h with h | h
    · rw [hg] at h
      exact Option.noConfusion h
    · rcases h g hg with ht | hc
      · simp [find_fuel_stations_along_route, ht]
      · simp [find_fuel_stations_along_route, hc]

/-- C7 witness: a concrete geometry of the wrong type (`"Point"`) with a
non-failing fetched result still yields the empty list. -/
theorem fuel_finder_invalid_geometry_empty_witness :
    find_fuel_stations_along_route (some ⟨"Point", [(0, 0)]⟩)
      [Except.ok [⟨0, 0⟩]] = [] :=
  fuel_finder_invalid_geometry_empty (some ⟨"Point", [(0, 0)]⟩) [Except.ok [⟨0, 0⟩]]
    (Or.inr (fun g hg => by
      injection hg with hg'
      rw [← hg']
      exact Or.inl (by decide)))

lemma lookup_eq_none_iff {α β : Type _} [BEq α] [LawfulBEq α] (l : List (α × β)) (k : α) :
    l.lookup k = none ↔ ∀ e ∈ l, e.1 ≠ k := by
  induction l with
  | nil => simp
  | cons e t ih =>
    obtain ⟨a, b⟩ := e
    by_cases hk : k = a
    · subst hk
      simp [List.lookup_cons]
    · have hbeq : (k == a) = false := beq_eq_false_iff_ne.mpr hk
      rw [List.lookup_cons]
      simp only [hbeq]
      rw [ih]
      constructor
      · intro hall e he
        rcases List.mem_cons.mp he with rfl | he'
        · exact fun hek => hk hek.symm
        · exact hall e he'
      · intro hall e he
        exact hall e (List.mem_cons_of_mem _ he)

/-- The per-station filter of services.py line 150: the computed
distance-from-route is within 1.5 km. -/
noncomputable def passesFilter (coordinates : List (ℝ × ℝ)) (t : FuelStation) : Bool :=
  decide (_calculate_distance_to_route t.lat t.lon coordinates ≤ ((1.5 : ℝ) : WithTop ℝ))

lemma foldl_insertStation_spec (coords : List (ℝ × ℝ)) :
    ∀ (L : List FuelStation) (m : List ((ℤ × ℤ) × StationOut)),
      ∃ m', L.foldl (insertStation coords) m = m ++ m' ∧
        (m'.map Prod.fst).Nodup ∧
        (∀ e ∈ m', m.lookup e.1 = none ∧
          e.1 = stationKey e.2.lat e.2.lon ∧
          e.2.distance_from_route = _calculate_distance_to_route e.2.lat e.2.lon coords ∧
          e.2.distance_from_route ≤ ((1.5 : ℝ) : WithTop ℝ) ∧
          L.find? (fun t => (stationKey t.lat t.lon == e.1) && passesFilter coords t) =
            some ⟨e.2.lat, e.2.lon⟩) := by
  intro L
  induction L with
  | nil => intro m; exact ⟨[], by simp, by simp, by simp⟩
  | cons t rest ih =>
    intro m
    rw [List.foldl_cons]
    by_cases hmem : (m.lookup (stationKey t.lat t.lon)).isSome = true
    · have hstep : insertStation coords m t = m := by
        simp only [insertStation]
        rw [if_pos hmem]
      rw [hstep]
      obtain ⟨m', h1, h2, h3⟩ := ih m
      refine ⟨m', h1, h2, fun e he => ?_⟩
      obtain ⟨hl, hkey, hdist, hle, hfind⟩ := h3 e he
      have hne : stationKey t.lat t.lon ≠ e.1 := by
        intro heq
        rw [heq] at hmem
        rw [hl] at hmem
        simp at hmem
      refine ⟨hl, hkey, hdist, hle, ?_⟩
      rw [List.find?_cons_of_neg]
      · exact hfind
      · simp [hne]
    · have hlooknone : m.lookup (stationKey t.lat t.lon) = none :=
        Option.not_isSome_iff_eq_none.mp hmem
      by_cases hpass : _calculate_distance_to_route t.lat t.lon coords ≤ ((1.5 : ℝ) : WithTop ℝ)
      · have hstep : insertStation coords m t = m ++ [(stationKey t.lat t.lon,
            ⟨t.lat, t.lon, _calculate_distance_to_route t.lat t.lon coords⟩)] := by
          simp only [insertStation]
          rw [if_neg hmem, if_pos hpass]
        rw [hstep]
        obtain ⟨m'', h1, h2, h3⟩ := ih (m ++ [(stationKey t.lat t.lon,
          ⟨t.lat, t.lon, _calculate_distance_to_route t.lat t.lon coords⟩)])
        refine ⟨(stationKey t.lat t.lon,
          ⟨t.lat, t.lon, _calculate_distance_to_route t.lat t.lon coords⟩) :: m'', ?_, ?_, ?_⟩
        · rw [h1, List.append_assoc, List.singleton_append]
        · rw [List.map_cons]
          refine List.Pairwise.cons (fun k hk => ?_) h2
          obtain ⟨e, he, hek⟩ := List.mem_map.mp hk
          obtain ⟨hl, -, -, -, -⟩ := h3 e he
          rw [List.lookup_append] at hl
          have hl2 : List.lookup e.1 [(stationKey t.lat t.lon,
              (⟨t.lat, t.lon, _calculate_distance_to_route t.lat t.lon coords⟩ : StationOut))] =
              none := by
            cases hcase : List.lookup e.1 (m ++ [(stationKey t.lat t.lon,
                (⟨t.lat, t.lon, _calculate_distance_to_route t.lat t.lon coords⟩ : StationOut))]) with
            | none =>
              rw [List.lookup_append] at hcase
              exact (Option.or_eq_none.mp hcase).2
            | some v =>
              rw [List.lookup_append] at hcase
              rw [hcase] at hl
              exact Option.noConfusion hl
          have := (lookup_eq_none_iff _ _).mp hl2 (stationKey t.lat t.lon,
            (⟨t.lat, t.lon, _calculate_distance_to_route t.lat t.lon coords⟩ : StationOut))
            (List.mem_singleton_self _)
          rw [← hek]
          exact this
        · intro e he
          rcases List.mem_cons.mp he with rfl | he'
          · refine ⟨hlooknone, rfl, rfl, hpass, ?_⟩
            rw [List.find?_cons_of_pos]
            simp [passesFilter, hpass]
          · obtain ⟨hl, hkey, hdist, hle, hfind⟩ := h3 e he'
            rw [List.lookup_append, Option.or_eq_none] at hl
            have hne : stationKey t.lat t.lon ≠ e.1 := by
              intro heq
              have := (lookup_eq_none_iff _ _).mp hl.2 (stationKey t.lat t.lon,
                (⟨t.lat, t.lon, _calculate_distance_to_route t.lat t.lon coords⟩ : StationOut))
                (List.mem_singleton_self _)
              exact this heq
            refine ⟨hl.1, hkey, hdist, hle, ?_⟩
            rw [List.find?_cons_of_neg]
            · exact hfind
            · simp [hne]
      · have hstep : insertStation coords m t = m := by
          simp only [insertStation]
          rw [if_neg hmem, if_neg hpass]
        rw [hstep]
        obtain ⟨m', h1, h2, h3⟩ := ih m
        refine ⟨m', h1, h2, fun e he => ?_⟩
        obtain ⟨hl, hkey, hdist, hle, hfind⟩ := h3 e he
        refine ⟨hl, hkey, hdist, hle, ?_⟩
        rw [List.find?_cons_of_neg]
        · exact hfind
        · simp [passesFilter, hpass]

/-- The stations of the non-exception gathered results, in the iteration
order of the two nested loops. -/
def allFetchedStations (results : List (Except Unit (List FuelStation))) :
    List FuelStation :=
  (results.map (fun r => match r with | .ok l => l | .error _ => [])).flatten

lemma buildStationsMap_eq_foldl (coords : List (ℝ × ℝ))
    (results : List (Except Unit (List FuelStation))) :
    buildStationsMap coords results =
      (allFetchedStations results).foldl (insertStation coords) [] := by
  suffices h : ∀ (results : List (Except Unit (List FuelStation)))
      (m : List ((ℤ × ℤ) × StationOut)),
      results.foldl
        (fun m result =>
          match result with
          | .error _ => m
          | .ok stations => stations.foldl (insertStation coords) m) m =
        (allFetchedStations results).foldl (insertStation coords) m by
    exact h results []
  intro results
  induction results with
  | nil => intro m; rfl
  | cons r rest ih =>
    intro m
    cases r with
    | error v =>
      rw [List.foldl_cons]
      rw [ih m]
      rfl
    | ok stations =>
      rw [List.foldl_cons]
      rw [ih (stations.foldl (insertStation coords) m)]
      have : allFetchedStations (Except.ok stations :: rest) =
          stations ++ allFetchedStations rest := by
        simp [allFetchedStations]
      rw [this, List.foldl_append]

/-- Decomposition of membership in the finder's output: the geometry was
a non-empty `LineString`, the stored distance is the minimum over the
full polyline and within 1.5 km, and the station is the first fetched
occurrence of its key among those within 1.5 km. -/
lemma find_mem_spec (route_geometry : Option RouteGeometry)
    (results : List (Except Unit (List FuelStation))) (s : StationOut)
    (hs : s ∈ find_fuel_stations_along_route route_geometry results) :
    ∃ g, route_geometry = some g ∧ g.type = "LineString" ∧ g.coordinates ≠ [] ∧
      s.distance_from_route = _calculate_distance_to_route s.lat s.lon g.coordinates ∧
      s.distance_from_route ≤ ((1.5 : ℝ) : WithTop ℝ) ∧
      (allFetchedStations results).find?
        (fun t => (stationKey t.lat t.lon == stationKey s.lat s.lon) &&
          passesFilter g.coordinates t) = some ⟨s.lat, s.lon⟩ := by
  cases hg : route_geometry with
  | none =>
    rw [hg] at hs
    simp [find_fuel_stations_along_route] at hs
  | some g =>
    rw [hg] at hs
    by_cases ht : g.type = "LineString"
    · by_cases hc : g.coordinates.isEmpty
      · simp [find_fuel_stations_along_route, hc] at hs
      · simp only [find_fuel_stations_along_route] at hs
        rw [if_neg (show ¬(g.type ≠ "LineString") from fun hcon => hcon ht),
          if_neg hc] at hs
        have hmem1 : s ∈ ((buildStationsMap g.coordinates results).map Prod.snd).mergeSort
            (fun a b => decide (a.distance_from_route ≤ b.distance_from_route)) :=
          List.mem_of_mem_take hs
        have hmem2 : s ∈ (buildStationsMap g.coordinates results).map Prod.snd :=
          (List.mergeSort_perm _ _).mem_iff.mp hmem1
        obtain ⟨e, he, hes⟩ := List.mem_map.mp hmem2
        obtain ⟨m', h1, h2, h3⟩ := foldl_insertStation_spec g.coordinates
          (allFetchedStations results) []
        rw [buildStationsMap_eq_foldl, h1, List.nil_append] at he
        obtain ⟨-, hkey, hdist, hle, hfind⟩ := h3 e he
        refine ⟨g, rfl, ht, by simpa using hc, ?_, ?_, ?_⟩
        · rw [← hes]; exact hdist
        · rw [← hes]; exact hle
        · rw [← hes, ← hkey]; exact hfind
    · simp [find_fuel_stations_along_route, ht] at hs

/-- C10: `_calculate_distance_to_route` returns `inf` (`⊤`) on an empty
coordinate list, but the geometry guard of the finder makes that branch
unreachable: every `distance_from_route` attached to a returned station
is a finite value, the minimum over the polyline's (non-empty) points. -/
theorem distance_to_route_inf_unreachable :
    (∀ lat lon : ℝ, _calculate_distance_to_route lat lon [] = ⊤) ∧
    (∀ (route_geometry : Option RouteGeometry)
      (results : List (Except Unit (List FuelStation))) (s : StationOut),
      s ∈ find_fuel_stations_along_route route_geometry results →
        ∃ (g : RouteGeometry) (r : ℝ), route_geometry = some g ∧ g.coordinates ≠ [] ∧
          s.distance_from_route = ((r : ℝ) : WithTop ℝ) ∧
          s.distance_from_route = _calculate_distance_to_route s.lat s.lon g.coordinates) := by
  constructor
  · intro lat lon; rfl
  · intro route_geometry results s hs
    obtain ⟨g, hg, -, hcne, hdist, hle, -⟩ := find_mem_spec route_geometry results s hs
    have hne_top : s.distance_from_route ≠ ⊤ := by
      intro htop
      rw [htop] at hle
      exact absurd hle (by simp)
    obtain ⟨r, hr⟩ := WithTop.ne_top_iff_exists.mp hne_top
    exact ⟨g, r, hg, hcne, hr.symm, hdist⟩

lemma sorted_mergeSort_dist (l : List StationOut) :
    List.Sorted (fun a b : StationOut => a.distance_from_route ≤ b.distance_from_route)
      (l.mergeSort (fun a b => decide (a.distance_from_route ≤ b.distance_from_route))) := by
  have htrans : ∀ a b c : StationOut,
      (decide (a.distance_from_route ≤ b.distance_from_route)) = true →
      (decide (b.distance_from_route ≤ c.distance_from_route)) = true →
      (decide (a.distance_from_route ≤ c.distance_from_route)) = true := by
    intro a b c hab hbc
    exact decide_eq_true (le_trans (of_decide_eq_true hab) (of_decide_eq_true hbc))
  have htotal : ∀ a b : StationOut,
      ((decide (a.distance_from_route ≤ b.distance_from_route)) ||
        (decide (b.distance_from_route ≤ a.distance_from_route))) = true := by
    intro a b
    rcases le_total a.distance_from_route b.distance_from_route with h | h <;> simp [h]
  exact (List.sorted_mergeSort htrans htotal l).imp (fun hab => of_decide_eq_true hab)

lemma find_eq_main (g : RouteGeometry) (results : List (Except Unit (List FuelStation)))
    (ht : g.type = "LineString") (hc : ¬(g.coordinates.isEmpty = true)) :
    find_fuel_stations_along_route (some g) results =
      (((buildStationsMap g.coordinates results).map Prod.snd).mergeSort
        (fun a b => decide (a.distance_from_route ≤ b.distance_from_route))).take 20 := by
  simp only [find_fuel_stations_along_route]
  rw [if_neg (show ¬(g.type ≠ "LineString") from fun hcon => hcon ht), if_neg hc]

/-- C5 (amended): the fuel-station finder returns at most 20 stations,
sorted ascending by `distance_from_route`; their rounded-coordinate keys
are pairwise distinct; every returned station's stored distance is the
minimum Haversine distance to the original full-resolution polyline and
is at most 1.5 km; and each returned station is the first fetched
occurrence of its key *among those within 1.5 km of the route* — when a
key's first occurrence is farther than 1.5 km, a later same-key
occurrence can be the one kept (see the counterexample). -/
theorem fuel_finder_pipeline_spec
    (route_geometry : Option RouteGeometry)
    (results : List (Except Unit (List FuelStation))) :
    (find_fuel_stations_along_route route_geometry results).length ≤ 20 ∧
    List.Sorted (fun a b : StationOut => a.distance_from_route ≤ b.distance_from_route)
      (find_fuel_stations_along_route route_geometry results) ∧
    ((find_fuel_stations_along_route route_geometry results).map
      (fun s => stationKey s.lat s.lon)).Nodup ∧
    (∀ s ∈ find_fuel_stations_along_route route_geometry results, ∃ g,
      route_geometry = some g ∧
      s.distance_from_route = _calculate_distance_to_route s.lat s.lon g.coordinates ∧
      s.distance_from_route ≤ ((1.5 : ℝ) : WithTop ℝ) ∧
      (allFetchedStations results).find?
        (fun t => (stationKey t.lat t.lon == stationKey s.lat s.lon) &&
          passesFilter g.coordinates t) = some ⟨s.lat, s.lon⟩) := by
  refine ⟨?_, ?_, ?_, fun s hs => ?_⟩
  · cases hg : route_geometry with
    | none => simp [find_fuel_stations_along_route]
    | some g =>
      by_cases ht : g.type = "LineString"
      · by_cases hc : g.coordinates.isEmpty
        · simp [find_fuel_stations_along_route, hc]
        · rw [find_eq_main g results ht hc, List.length_take]
          exact min_le_left _ _
      · simp [find_fuel_stations_along_route, ht]
  · cases hg : route_geometry with
    | none => simp [find_fuel_stations_along_route]
    | some g =>
      by_cases ht : g.type = "LineString"
      · by_cases hc : g.coordinates.isEmpty
        · simp [find_fuel_stations_along_route, hc]
        · rw [find_eq_main g results ht hc]
          exact List.Pairwise.sublist (List.take_sublist _ _) (sorted_mergeSort_dist _)
      · simp [find_fuel_stations_along_route, ht]
  · cases hg : route_geometry with
    | none => simp [find_fuel_stations_along_route]
    | some g =>
      by_cases ht : g.type = "LineString"
      · by_cases hc : g.coordinates.isEmpty
        · simp [find_fuel_stations_along_route, hc]
        · rw [find_eq_main g results ht hc]
          obtain ⟨m', h1, h2, h3⟩ := foldl_insertStation_spec g.coordinates
            (allFetchedStations results) []
          have hbuild : buildStationsMap g.coordinates results = m' := by
            rw [buildStationsMap_eq_foldl, h1, List.nil_append]
          rw [hbuild]
          have hmapkey : (m'.map Prod.snd).map
              (fun s : StationOut => stationKey s.lat s.lon) = m'.map Prod.fst := by
            rw [List.map_map]
            apply List.map_congr_left
            intro e he
            exact ((h3 e he).2.1).symm
          have hperm : (((m'.map Prod.snd).mergeSort
              (fun a b => decide (a.distance_from_route ≤ b.distance_from_route))).map
                (fun s : StationOut => stationKey s.lat s.lon)).Perm
              ((m'.map Prod.snd).map (fun s : StationOut => stationKey s.lat s.lon)) :=
            (List.mergeSort_perm _ _).map _
          have hnodup_sorted : (((m'.map Prod.snd).mergeSort
              (fun a b => decide (a.distance_from_route ≤ b.distance_from_route))).map
                (fun s : StationOut => stationKey s.lat s.lon)).Nodup :=
            hperm.nodup_iff.mpr (by rw [hmapkey]; exact h2)
          rw [List.map_take]
          exact (List.take_sublist _ _).nodup hnodup_sorted
      · simp [find_fuel_stations_along_route, ht]
  · obtain ⟨g, hg, -, -, hdist, hle, hfind⟩ := find_mem_spec route_geometry results s hs
    exact ⟨g, hg, hdist, hle, hfind⟩

lemma calc_dist_single (lat lon la lo : ℝ) :
    _calculate_distance_to_route lat lon [(lo, la)] =
      ((calculate_distance lat lon la lo : ℝ) : WithTop ℝ) := by
  simp only [_calculate_distance_to_route, List.foldl_cons, List.foldl_nil]
  rw [if_pos (WithTop.coe_lt_top _)]

lemma insertStation_nil (coords : List (ℝ × ℝ)) (t : FuelStation) :
    insertStation coords [] t =
      if _calculate_distance_to_route t.lat t.lon coords ≤ ((1.5 : ℝ) : WithTop ℝ) then
        [(stationKey t.lat t.lon,
          ⟨t.lat, t.lon, _calculate_distance_to_route t.lat t.lon coords⟩)]
      else [] := by
  simp only [insertStation]
  rw [if_neg (by simp)]
  simp

lemma find_single_station_eval :
    find_fuel_stations_along_route (some ⟨"LineString", [((0 : ℝ), (0 : ℝ))]⟩)
        [Except.ok [⟨0, 0⟩]] = [⟨0, 0, ((0 : ℝ) : WithTop ℝ)⟩] := by
  rw [find_eq_main _ _ rfl (by simp)]
  have hmap : buildStationsMap [((0 : ℝ), (0 : ℝ))] [Except.ok [⟨0, 0⟩]] =
      [(stationKey 0 0, ⟨0, 0, ((0 : ℝ) : WithTop ℝ)⟩)] := by
    simp only [buildStationsMap, List.foldl_cons, List.foldl_nil]
    rw [insertStation_nil, calc_dist_single]
    rw [show (⟨0, 0⟩ : FuelStation).lat = 0 from rfl, show (⟨0, 0⟩ : FuelStation).lon = 0 from rfl,
      calculate_distance_self]
    rw [if_pos (WithTop.coe_le_coe.mpr (by norm_num))]
  rw [hmap]
  simp [List.mergeSort_singleton]

/-- C5 witness: the per-member pipeline property instantiated at a
one-station input whose station lies on the route. -/
theorem fuel_finder_pipeline_spec_witness :
    ∃ g, (some (⟨"LineString", [((0 : ℝ), (0 : ℝ))]⟩ : RouteGeometry)) = some g ∧
      (⟨0, 0, ((0 : ℝ) : WithTop ℝ)⟩ : StationOut).distance_from_route =
        _calculate_distance_to_route 0 0 g.coordinates ∧
      (⟨0, 0, ((0 : ℝ) : WithTop ℝ)⟩ : StationOut).distance_from_route ≤
        ((1.5 : ℝ) : WithTop ℝ) ∧
      (allFetchedStations [Except.ok [⟨0, 0⟩]]).find?
        (fun t => (stationKey t.lat t.lon == stationKey 0 0) &&
          passesFilter g.coordinates t) = some ⟨0, 0⟩ :=
  (fuel_finder_pipeline_spec (some ⟨"LineString", [((0 : ℝ), (0 : ℝ))]⟩)
    [Except.ok [⟨0, 0⟩]]).2.2.2 ⟨0, 0, ((0 : ℝ) : WithTop ℝ)⟩
    (by rw [find_single_station_eval]; exact List.mem_singleton_self _)

/-- C10 witness: the finiteness property instantiated at the same
one-station input. -/
theorem distance_to_route_inf_unreachable_witness :
    ∃ (g : RouteGeometry) (r : ℝ),
      (some (⟨"LineString", [((0 : ℝ), (0 : ℝ))]⟩ : RouteGeometry)) = some g ∧
      g.coordinates ≠ [] ∧
      (⟨0, 0, ((0 : ℝ) : WithTop ℝ)⟩ : StationOut).distance_from_route = ((r : ℝ) : WithTop ℝ) ∧
      (⟨0, 0, ((0 : ℝ) : WithTop ℝ)⟩ : StationOut).distance_from_route =
        _calculate_distance_to_route 0 0 g.coordinates :=
  distance_to_route_inf_unreachable.2 (some ⟨"LineString", [((0 : ℝ), (0 : ℝ))]⟩)
    [Except.ok [⟨0, 0⟩]] ⟨0, 0, ((0 : ℝ) : WithTop ℝ)⟩
    (by rw [find_single_station_eval]; exact List.mem_singleton_self _)

lemma cex_distB_gt : ¬ (calculate_distance 0 0.01349 0 0 ≤ (1.5 : ℝ)) := by
  rw [calculate_distance_symm, calculate_distance_equator (by norm_num) (by norm_num)]
  push_neg
  have h := Real.pi_gt_3141592
  nlinarith

lemma cex_distA_le : calculate_distance 0 0.0134896 0 0 ≤ (1.5 : ℝ) := by
  rw [calculate_distance_symm, calculate_distance_equator (by norm_num) (by norm_num)]
  have h := Real.pi_lt_3141593
  nlinarith

lemma cex_keys_eq : stationKey (0 : ℝ) 0.01349 = stationKey (0 : ℝ) 0.0134896 := by
  unfold stationKey
  rw [Prod.mk.injEq]
  constructor
  · rfl
  · norm_num [round_eq]

lemma cex_eval :
    find_fuel_stations_along_route (some ⟨"LineString", [((0 : ℝ), (0 : ℝ))]⟩)
        [Except.ok [⟨0, 0.01349⟩, ⟨0, 0.0134896⟩]] =
      [⟨0, 0.0134896, ((calculate_distance 0 0.0134896 0 0 : ℝ) : WithTop ℝ)⟩] := by
  rw [find_eq_main _ _ rfl (by simp)]
  have hmap : buildStationsMap [((0 : ℝ), (0 : ℝ))]
      [Except.ok [⟨0, 0.01349⟩, ⟨0, 0.0134896⟩]] =
      [(stationKey 0 0.0134896,
        ⟨0, 0.0134896, ((calculate_distance 0 0.0134896 0 0 : ℝ) : WithTop ℝ)⟩)] := by
    simp only [buildStationsMap, List.foldl_cons, List.foldl_nil]
    rw [insertStation_nil, calc_dist_single]
    rw [show (⟨0, 0.01349⟩ : FuelStation).lat = 0 from rfl,
      show (⟨0, 0.01349⟩ : FuelStation).lon = 0.01349 from rfl]
    rw [if_neg (fun hcon => cex_distB_gt (WithTop.coe_le_coe.mp hcon))]
    rw [insertStation_nil, calc_dist_single]
    rw [show (⟨0, 0.0134896⟩ : FuelStation).lat = 0 from rfl,
      show (⟨0, 0.0134896⟩ : FuelStation).lon = 0.0134896 from rfl]
    rw [if_pos (WithTop.coe_le_coe.mpr cex_distA_le)]
  rw [hmap]
  simp [List.mergeSort_singleton]

/-- C5 counterexample: the two fetched stations share the rounded
six-decimal key, the first fetched occurrence `(0, 0.01349)` lies just
beyond 1.5 km while the second `(0, 0.0134896)` lies just within, and
the finder keeps the *second* occurrence — so "deduplicated …, first
occurrence kept" is false as stated. -/
theorem fuel_finder_not_first_occurrence_cex :
    stationKey (0 : ℝ) 0.01349 = stationKey (0 : ℝ) 0.0134896 ∧
    allFetchedStations [Except.ok [⟨0, 0.01349⟩, ⟨0, 0.0134896⟩]] =
      [⟨0, 0.01349⟩, ⟨0, 0.0134896⟩] ∧
    (find_fuel_stations_along_route (some ⟨"LineString", [((0 : ℝ), (0 : ℝ))]⟩)
        [Except.ok [⟨0, 0.01349⟩, ⟨0, 0.0134896⟩]]).map (fun s => (s.lat, s.lon)) =
      [((0 : ℝ), (0.0134896 : ℝ))] ∧
    (0.01349 : ℝ) ≠ (0.0134896 : ℝ) := by
  refine ⟨cex_keys_eq, by simp [allFetchedStations], ?_, by norm_num⟩
  rw [cex_eval]
  rfl

end RouteOpt
